import Mathlib

/-!
Verification development for the staticplanetscipy feed aggregator.

The embedding models, from `staticplanetscipy/__main__.py` and
`staticplanetscipy/atom.py`:
  * `get_item_id` : SHA-256 content fingerprint of a feed item;
  * the date-cache update loop, date backfill, `sort_key`, the stable
    descending sort and the `max_items` truncation of `main`;
  * the fetch/parse loops with their per-source and per-entry failure
    isolation;
  * `atom._get_id` and the Atom entry `<id>` generation of
    `FeedEntry.get_atom`.

Modelling conventions:
  * bytes are `Nat` (< 256), machine words are `Nat` reduced `% 2 ^ 32`;
  * Python `datetime` values and `time.time()` readings are seconds
    (`Nat`); `datetime.fromtimestamp` is then the identity, which is
    order- and equality-faithful;
  * the insertion-ordered Python dict `date_cache` is an association
    list with unique keys;
  * `time.time()` is read once per run (the source reads it once per
    newly seen item inside one loop; the spec treats the run as a single
    instant, and no claim depends on sub-run clock drift);
  * external collaborators (feedparser, bleach) appear only through
    their possible outcomes: a parse either yields structured entries or
    fails, sanitizing an entry either yields a string or fails.
-/

set_option maxRecDepth 1000000

namespace StaticPlanet

/-! ### UTF-8 encoding (Python `str.encode('utf-8')`)

Characters are encoded arithmetically; the four branches are the 1-4
byte UTF-8 forms of the code point. -/

def utf8Char (c : Char) : List Nat :=
  if c.toNat < 128 then [c.toNat]
  else if c.toNat < 2048 then [192 + c.toNat / 64, 128 + c.toNat % 64]
  else if c.toNat < 65536 then
    [224 + c.toNat / 4096, 128 + c.toNat / 64 % 64, 128 + c.toNat % 64]
  else
    [240 + c.toNat / 262144, 128 + c.toNat / 4096 % 64, 128 + c.toNat / 64 % 64,
     128 + c.toNat % 64]

def utf8Str (s : String) : List Nat :=
  (s.data.map utf8Char).flatten

/-! ### SHA-256 (`hashlib.sha256`) -/

def rotr (n x : Nat) : Nat := ((x >>> n) ||| (x <<< (32 - n))) % 2 ^ 32

def k256 : List Nat :=
  [1116352408, 1899447441, 3049323471, 3921009573, 961987163,
   1508970993, 2453635748, 2870763221, 3624381080, 310598401,
   607225278, 1426881987, 1925078388, 2162078206, 2614888103,
   3248222580, 3835390401, 4022224774, 264347078, 604807628,
   770255983, 1249150122, 1555081692, 1996064986, 2554220882,
   2821834349, 2952996808, 3210313671, 3336571891, 3584528711,
   113926993, 338241895, 666307205, 773529912, 1294757372,
   1396182291, 1695183700, 1986661051, 2177026350, 2456956037,
   2730485921, 2820302411, 3259730800, 3345764771, 3516065817,
   3600352804, 4094571909, 275423344, 430227734, 506948616,
   659060556, 883997877, 958139571, 1322822218, 1537002063,
   1747873779, 1955562222, 2024104815, 2227730452, 2361852424,
   2428436474, 2756734187, 3204031479, 3329325298]

def initH : List Nat :=
  [1779033703, 3144134277, 1013904242, 2773480762,
   1359893119, 2600822924, 528734635, 1541459225]

def shaPad (msg : List Nat) : List Nat :=
  let L := msg.length
  let zeros := (119 - L % 64) % 64
  msg ++ [128] ++ List.replicate zeros 0 ++
    (List.range 8).map (fun i => ((8 * L) >>> (56 - 8 * i)) % 256)

def toWords : List Nat → List Nat
  | b0 :: b1 :: b2 :: b3 :: rest => (((b0 * 256 + b1) * 256 + b2) * 256 + b3) :: toWords rest
  | _ => []

def chunk16 (acc : List Nat) : List Nat → List (List Nat)
  | [] => if acc.isEmpty then [] else [acc.reverse]
  | w :: rest =>
      if acc.length = 15 then (w :: acc).reverse :: chunk16 [] rest
      else chunk16 (w :: acc) rest

def toBlocks (ws : List Nat) : List (List Nat) := chunk16 [] ws

def smallSigma0 (x : Nat) : Nat := (rotr 7 x) ^^^ (rotr 18 x) ^^^ (x >>> 3)
def smallSigma1 (x : Nat) : Nat := (rotr 17 x) ^^^ (rotr 19 x) ^^^ (x >>> 10)
def bigSigma0 (x : Nat) : Nat := (rotr 2 x) ^^^ (rotr 13 x) ^^^ (rotr 22 x)
def bigSigma1 (x : Nat) : Nat := (rotr 6 x) ^^^ (rotr 11 x) ^^^ (rotr 25 x)

def schedule (ws : List Nat) : List Nat :=
  (List.range 48).foldl
    (fun w i =>
      w ++ [(w.getD i 0 + smallSigma0 (w.getD (i + 1) 0) + w.getD (i + 9) 0 +
             smallSigma1 (w.getD (i + 14) 0)) % 2 ^ 32])
    ws

def compress (h : List Nat) (block : List Nat) : List Nat :=
  let w := schedule block
  let st :=
    (List.range 64).foldl
      (fun (st : Nat × Nat × Nat × Nat × Nat × Nat × Nat × Nat) i =>
        let (a, b, c, d, e, f, g, hh) := st
        let s1 := bigSigma1 e
        let ch := (e &&& f) ^^^ ((4294967295 - e) &&& g)
        let t1 := (hh + s1 + ch + k256.getD i 0 + w.getD i 0) % 2 ^ 32
        let s0 := bigSigma0 a
        let maj := (a &&& b) ^^^ (a &&& c) ^^^ (b &&& c)
        let t2 := (s0 + maj) % 2 ^ 32
        ((t1 + t2) % 2 ^ 32, a, b, c, (d + t1) % 2 ^ 32, e, f, g))
      (h.getD 0 0, h.getD 1 0, h.getD 2 0, h.getD 3 0,
       h.getD 4 0, h.getD 5 0, h.getD 6 0, h.getD 7 0)
  [(h.getD 0 0 + st.1) % 2 ^ 32,
   (h.getD 1 0 + st.2.1) % 2 ^ 32,
   (h.getD 2 0 + st.2.2.1) % 2 ^ 32,
   (h.getD 3 0 + st.2.2.2.1) % 2 ^ 32,
   (h.getD 4 0 + st.2.2.2.2.1) % 2 ^ 32,
   (h.getD 5 0 + st.2.2.2.2.2.1) % 2 ^ 32,
   (h.getD 6 0 + st.2.2.2.2.2.2.1) % 2 ^ 32,
   (h.getD 7 0 + st.2.2.2.2.2.2.2) % 2 ^ 32]

def sha256 (msg : List Nat) : List Nat :=
  (toBlocks (toWords (shaPad msg))).foldl compress initH

def wordHex (w : Nat) : List Char :=
  (List.range 8).map (fun i => Nat.digitChar ((w >>> (28 - 4 * i)) % 16))

def hexDigest (ws : List Nat) : String :=
  String.mk (ws.map wordHex).flatten

/-! ### Data model (`Feed`, `FeedItem` namedtuples) -/

structure Feed where
  id : String
  title : String
  url : String
deriving DecidableEq, Repr

structure FeedItem where
  feed : Feed
  url : String
  date : Option Nat
  title : String
  description : String
deriving DecidableEq, Repr

/-! ### `get_item_id` (`__main__.py` lines 252-258)

Four successive `h.update` calls are a single hash of the concatenated
UTF-8 byte sequences. -/

def itemIdBytes (it : FeedItem) : List Nat :=
  utf8Str it.feed.url ++ utf8Str it.url ++ utf8Str it.title ++ utf8Str it.description

def get_item_id (it : FeedItem) : String :=
  hexDigest (sha256 (itemIdBytes it))

/-! ### Date cache update (`__main__.py` lines 158-166)

`lookupC` is lookup in an insertion-ordered dict modelled as an
association list.  In the source a duplicate item id re-assigns the same
value to an existing key, which neither changes the value nor the key
position; `cacheStep` models that as a skip. -/

abbrev DateCache := List (String × Nat)

def lookupC (c : DateCache) (k : String) : Option Nat :=
  match c with
  | [] => none
  | (k', v) :: rest => if k = k' then some v else lookupC rest k

def cacheStep (prior : DateCache) (now : Nat) (acc : DateCache) (k : String) : DateCache :=
  if (lookupC acc k).isSome then acc
  else acc ++ [(k, (lookupC prior k).getD now)]

def updateDateCache (items : List FeedItem) (prior : DateCache) (now : Nat) : DateCache :=
  (items.map get_item_id).foldl (cacheStep prior now) []

/-! ### Date backfill (`__main__.py` lines 173-180)

Only items whose feed supplied no date are rebuilt, with the first-seen
cache time as date.  In the pipeline the cache always holds every item's
id, so the `getD 0` default is never taken there. -/

def backfillItem (cache : DateCache) (it : FeedItem) : FeedItem :=
  match it.date with
  | none =>
      { feed := it.feed, url := it.url, title := it.title,
        date := some ((lookupC cache (get_item_id it)).getD 0),
        description := it.description }
  | some _ => it

/-! ### `sort_key` and the item sort (`__main__.py` lines 184-188)

`items.sort(key=sort_key, reverse=True)` is Python's stable sort,
descending.  `List.insertionSort` with the reversed key comparison is a
stable sort producing the identical list, and on ties `orderedInsert`
keeps the earlier element first. -/

def sort_key (cache : DateCache) (it : FeedItem) : Nat :=
  min ((lookupC cache (get_item_id it)).getD 0) (it.date.getD 0)

def itemLE (cache : DateCache) (a b : FeedItem) : Prop :=
  sort_key cache b ≤ sort_key cache a

instance (cache : DateCache) : DecidableRel (itemLE cache) :=
  fun _ _ => Nat.decLe _ _

instance (cache : DateCache) : IsTotal FeedItem (itemLE cache) :=
  ⟨fun a b => Or.symm (Nat.le_total (sort_key cache a) (sort_key cache b))⟩

instance (cache : DateCache) : IsTrans FeedItem (itemLE cache) :=
  ⟨fun _ _ _ hab hbc => Nat.le_trans hbc hab⟩

def sortItems (cache : DateCache) (items : List FeedItem) : List FeedItem :=
  items.insertionSort (itemLE cache)

/-! ### Truncation (`__main__.py` line 196): `del items[config['max_items']:]` -/

def truncateItems (items : List FeedItem) (maxItems : Nat) : List FeedItem :=
  items.take maxItems

/-! ### The processing pipeline (`__main__.py` lines 155-196)

From parsed items and the prior cache to the ordered, truncated item
list and the new cache (the feed-list locale sort and the HTML/Atom
output are outside every claim). -/

def processItems (items : List FeedItem) (prior : DateCache) (now : Nat)
    (maxItems : Nat) : List FeedItem × DateCache :=
  let cache := updateDateCache items prior now
  let backfilled := items.map (backfillItem cache)
  (truncateItems (sortItems cache backfilled) maxItems, cache)

/-! ### Fetch/parse aggregation (`__main__.py` lines 86-153)

A source either fails to fetch, fetches but fails to parse, or parses
into a feed title/link and entries.  Per entry, the sanitize step and
the link access can each fail; a failed entry is skipped.  Fetch
failures are recorded first (the fetch loop), then parse failures (the
parse loop over the successfully fetched files). -/

structure ParsedEntry where
  content : Option String
  link : Option String
  title : Option String
  date : Option Nat
deriving DecidableEq, Repr

structure ParsedFeed where
  title : String
  link : String
  entries : List ParsedEntry
deriving DecidableEq, Repr

inductive SourceResult where
  | fetchFail : SourceResult
  | parseFail : SourceResult
  | ok : ParsedFeed → SourceResult
deriving DecidableEq, Repr

def feedOf (url : String) (pf : ParsedFeed) : Feed :=
  { id := url, title := pf.title, url := pf.link }

def processEntry (feed : Feed) (e : ParsedEntry) : Option FeedItem :=
  match e.content, e.link with
  | some c, some l =>
      some { feed := feed, url := l, date := e.date,
             title := e.title.getD "Untitled", description := c }
  | _, _ => none

def isFetchFail : SourceResult → Bool
  | .fetchFail => true
  | _ => false

def parseStep (acc : List Feed × List FeedItem × List String)
    (s : String × SourceResult) : List Feed × List FeedItem × List String :=
  match s.2 with
  | .fetchFail => acc
  | .parseFail => (acc.1, acc.2.1, acc.2.2 ++ [s.1])
  | .ok pf =>
      (acc.1 ++ [feedOf s.1 pf],
       acc.2.1 ++ pf.entries.filterMap (processEntry (feedOf s.1 pf)),
       acc.2.2)

def parsePhase (sources : List (String × SourceResult)) :
    List Feed × List FeedItem × List String :=
  sources.foldl parseStep ([], [], [])

def aggregate (sources : List (String × SourceResult)) :
    List Feed × List FeedItem × List String :=
  let fetchFailed := (sources.filter (fun s => isFetchFail s.2)).map Prod.fst
  let parsed := parsePhase sources
  (parsed.1, parsed.2.1, fetchFailed ++ parsed.2.2)

/-! Closed-form characterizations of the aggregation loops, proved
equal to the folds in claim C7. -/

def isParseFail : SourceResult → Bool
  | .parseFail => true
  | _ => false

def aggFeeds (sources : List (String × SourceResult)) : List Feed :=
  sources.filterMap (fun s =>
    match s.2 with
    | .ok pf => some (feedOf s.1 pf)
    | _ => none)

def aggItems (sources : List (String × SourceResult)) : List FeedItem :=
  sources.flatMap (fun s =>
    match s.2 with
    | .ok pf => pf.entries.filterMap (processEntry (feedOf s.1 pf))
    | _ => [])

def parseFailures (sources : List (String × SourceResult)) : List String :=
  (sources.filter (fun s => isParseFail s.2)).map Prod.fst

def fetchFailures (sources : List (String × SourceResult)) : List String :=
  (sources.filter (fun s => isFetchFail s.2)).map Prod.fst

/-! ### Atom id generation (`atom.py` lines 188-204) and entry ids -/

structure PyDateTime where
  year : Nat
  month : Nat
  day : Nat
  hour : Nat
  minute : Nat
  second : Nat
deriving DecidableEq, Repr

def pad2 (n : Nat) : List Char :=
  [Nat.digitChar (n / 10 % 10), Nat.digitChar (n % 10)]

def pad4 (n : Nat) : List Char :=
  [Nat.digitChar (n / 1000 % 10), Nat.digitChar (n / 100 % 10),
   Nat.digitChar (n / 10 % 10), Nat.digitChar (n % 10)]

/-- Python `date.strftime('%Y-%m-%d')`; `datetime` years are 1..9999,
  so the year is the zero-padded four digits. -/
def dayString (d : PyDateTime) : String :=
  String.mk (pad4 d.year ++ ['-'] ++ pad2 d.month ++ ['-'] ++ pad2 d.day)

def epochDT : PyDateTime := ⟨1970, 1, 1, 0, 0, 0⟩

/-- One content part as `_get_id` hashes it: its UTF-8 bytes (a `","`
  placeholder when the part is `None`) followed by a `","` separator. -/
def partEnc (x : Option String) : List Nat :=
  (match x with
   | none => utf8Str ","
   | some s => utf8Str s) ++ utf8Str ","

/-- The byte sequence `_get_id` hashes: the fixed namespace salt, then
  the encoded content parts. -/
def idBytes (content : List (Option String)) : List Nat :=
  utf8Str "github.com/spacetelescope/asv" ++ (content.map partEnc).flatten

def atomGetId (owner : String) (date : Option PyDateTime)
    (content : List (Option String)) : String :=
  "tag:" ++ owner ++ "," ++ dayString (date.getD epochDT) ++ ":/" ++
    hexDigest (sha256 (idBytes content))

/-! ### Atom entry id (`atom.py` `FeedEntry.get_atom` lines 58-69) -/

structure AtomFeedEntry where
  title : String
  updated : PyDateTime
  link : Option String
  author : Option String
  author_uri : Option String
  content : Option String
  id_context : Option (List (Option String))
deriving DecidableEq, Repr

def entryIdContext (e : AtomFeedEntry) : List (Option String) :=
  some "entry" ::
    (match e.id_context with
     | none => [some e.title, e.link, e.content]
     | some l => l)

def entryAtomId (e : AtomFeedEntry) (owner : String) : String :=
  atomGetId owner (some e.updated) (entryIdContext e)

/-! ## Helper lemmas: characters and UTF-8 -/

theorem char_toNat_injective (c1 c2 : Char) (h : c1.toNat = c2.toNat) : c1 = c2 := by
  apply Char.ext; apply UInt32.ext; exact h

theorem char_toNat_lt (c : Char) : c.toNat < 1114112 := by
  show c.val.toNat < 1114112
  rcases c.valid with h | h
  · omega
  · omega

theorem utf8Char_append_cancel {c1 c2 : Char} {r1 r2 : List Nat}
    (h : utf8Char c1 ++ r1 = utf8Char c2 ++ r2) : c1 = c2 ∧ r1 = r2 := by
  unfold utf8Char at h
  split_ifs at h <;>
    simp only [List.cons_append, List.nil_append, List.cons.injEq] at h <;>
    first
      | (exfalso; omega)
      | (refine ⟨char_toNat_injective c1 c2 (by omega), by tauto⟩)

theorem utf8Char_ne_nil (c : Char) : utf8Char c ≠ [] := by
  unfold utf8Char; split_ifs <;> simp

theorem utf8Join_injective : ∀ (l1 l2 : List Char),
    (l1.map utf8Char).flatten = (l2.map utf8Char).flatten → l1 = l2
  | [], [], _ => rfl
  | [], c :: _, h => by
      exfalso
      simp only [List.map_nil, List.flatten_nil, List.map_cons, List.flatten_cons] at h
      rcases List.append_eq_nil.mp h.symm with ⟨h1, _⟩
      exact utf8Char_ne_nil c h1
  | c :: _, [], h => by
      exfalso
      simp only [List.map_nil, List.flatten_nil, List.map_cons, List.flatten_cons] at h
      rcases List.append_eq_nil.mp h with ⟨h1, _⟩
      exact utf8Char_ne_nil c h1
  | c1 :: t1, c2 :: t2, h => by
      simp only [List.map_cons, List.flatten_cons] at h
      obtain ⟨hc, hr⟩ := utf8Char_append_cancel h
      exact hc ▸ congrArg (c1 :: ·) (utf8Join_injective t1 t2 hr)

theorem utf8Str_injective {s1 s2 : String} (h : utf8Str s1 = utf8Str s2) : s1 = s2 :=
  String.ext (utf8Join_injective _ _ h)

theorem utf8Str_append (a b : String) : utf8Str (a ++ b) = utf8Str a ++ utf8Str b := by
  simp [utf8Str, String.data_append]

/-! ## Helper lemmas: the date cache -/

theorem lookupC_append (l : DateCache) (k k' : String) (v : Nat) :
    lookupC (l ++ [(k, v)]) k' =
      match lookupC l k' with
      | some w => some w
      | none => if k' = k then some v else none := by
  induction l with
  | nil => simp [lookupC]
  | cons p rest ih =>
      obtain ⟨a, b⟩ := p
      by_cases hk : k' = a <;> simp [lookupC, hk, ih]

theorem lookupC_isSome_iff (c : DateCache) (k : String) :
    (lookupC c k).isSome ↔ k ∈ c.map Prod.fst := by
  induction c with
  | nil => simp [lookupC]
  | cons p rest ih =>
      obtain ⟨a, b⟩ := p
      by_cases hk : k = a <;> simp [lookupC, hk, ih]

theorem cacheFold_lookup (prior : DateCache) (now : Nat) :
    ∀ (ks : List String) (acc : DateCache) (k : String),
    lookupC (ks.foldl (cacheStep prior now) acc) k =
      match lookupC acc k with
      | some v => some v
      | none => if k ∈ ks then some ((lookupC prior k).getD now) else none
  | [], acc, k => by cases h : lookupC acc k <;> simp [h]
  | k0 :: ks, acc, k => by
      simp only [List.foldl_cons]
      rw [cacheFold_lookup prior now ks (cacheStep prior now acc k0) k]
      unfold cacheStep
      by_cases h0 : (lookupC acc k0).isSome
      · rw [if_pos h0]
        cases h : lookupC acc k with
        | some v => simp [h]
        | none =>
            by_cases hk : k = k0
            · subst hk
              rw [h] at h0
              simp at h0
            · simp [h, hk]
      · rw [if_neg h0]
        rw [lookupC_append]
        cases h : lookupC acc k with
        | some v => simp [h]
        | none =>
            by_cases hk : k = k0
            · subst hk; simp [h]
            · simp [h, hk]

theorem updateDateCache_lookup (items : List FeedItem) (prior : DateCache) (now : Nat)
    (k : String) :
    lookupC (updateDateCache items prior now) k =
      if k ∈ items.map get_item_id then some ((lookupC prior k).getD now) else none := by
  unfold updateDateCache
  rw [cacheFold_lookup]
  simp [lookupC]

theorem updateDateCache_mem_keys (items : List FeedItem) (prior : DateCache) (now : Nat)
    (k : String) :
    k ∈ (updateDateCache items prior now).map Prod.fst ↔ k ∈ items.map get_item_id := by
  rw [← lookupC_isSome_iff, updateDateCache_lookup]
  by_cases h : k ∈ items.map get_item_id <;> simp [h]

theorem cacheFold_nodup (prior : DateCache) (now : Nat) :
    ∀ (ks : List String) (acc : DateCache), (acc.map Prod.fst).Nodup →
    ((ks.foldl (cacheStep prior now) acc).map Prod.fst).Nodup
  | [], _, h => h
  | k0 :: ks, acc, h => by
      simp only [List.foldl_cons]
      apply cacheFold_nodup prior now ks
      unfold cacheStep
      by_cases h0 : (lookupC acc k0).isSome
      · rwa [if_pos h0]
      · rw [if_neg h0]
        have hnotmem : k0 ∉ acc.map Prod.fst := by
          rw [← lookupC_isSome_iff]; exact h0
        simp only [List.map_append, List.map_cons, List.map_nil]
        simp [List.nodup_append, h, hnotmem]

theorem updateDateCache_nodup (items : List FeedItem) (prior : DateCache) (now : Nat) :
    ((updateDateCache items prior now).map Prod.fst).Nodup :=
  cacheFold_nodup prior now _ [] (by simp)

theorem cacheFold_congr (p1 p2 : DateCache) (n1 n2 : Nat) :
    ∀ (ks : List String),
    (∀ k ∈ ks, (lookupC p1 k).getD n1 = (lookupC p2 k).getD n2) →
    ∀ acc, ks.foldl (cacheStep p1 n1) acc = ks.foldl (cacheStep p2 n2) acc
  | [], _, _ => rfl
  | k0 :: ks, h, acc => by
      simp only [List.foldl_cons]
      have hstep : cacheStep p1 n1 acc k0 = cacheStep p2 n2 acc k0 := by
        unfold cacheStep
        rw [h k0 (List.mem_cons_self k0 ks)]
      rw [hstep]
      exact cacheFold_congr p1 p2 n1 n2 ks (fun k hk => h k (List.mem_cons_of_mem _ hk)) _

/-! ## Helper lemmas: decimal digits and day strings -/

theorem digitChar_inj {a b : Nat} (ha : a < 10) (hb : b < 10)
    (h : Nat.digitChar a = Nat.digitChar b) : a = b := by
  have key : ∀ x y : Fin 10, Nat.digitChar x.val = Nat.digitChar y.val → x = y := by decide
  exact congrArg Fin.val (key ⟨a, ha⟩ ⟨b, hb⟩ h)

theorem dayString_injective {d1 d2 : PyDateTime}
    (hy1 : d1.year < 10000) (hy2 : d2.year < 10000)
    (hm1 : d1.month < 100) (hm2 : d2.month < 100)
    (hd1 : d1.day < 100) (hd2 : d2.day < 100)
    (h : dayString d1 = dayString d2) :
    d1.year = d2.year ∧ d1.month = d2.month ∧ d1.day = d2.day := by
  have hd := congrArg String.data h
  simp only [dayString, pad4, pad2, List.cons_append, List.nil_append,
    List.cons.injEq, and_true] at hd
  obtain ⟨e1, e2, e3, e4, _, e5, e6, _, e7, e8⟩ := hd
  have ten : (0 : Nat) < 10 := by norm_num
  have g1 := digitChar_inj (Nat.mod_lt _ ten) (Nat.mod_lt _ ten) e1
  have g2 := digitChar_inj (Nat.mod_lt _ ten) (Nat.mod_lt _ ten) e2
  have g3 := digitChar_inj (Nat.mod_lt _ ten) (Nat.mod_lt _ ten) e3
  have g4 := digitChar_inj (Nat.mod_lt _ ten) (Nat.mod_lt _ ten) e4
  have g5 := digitChar_inj (Nat.mod_lt _ ten) (Nat.mod_lt _ ten) e5
  have g6 := digitChar_inj (Nat.mod_lt _ ten) (Nat.mod_lt _ ten) e6
  have g7 := digitChar_inj (Nat.mod_lt _ ten) (Nat.mod_lt _ ten) e7
  have g8 := digitChar_inj (Nat.mod_lt _ ten) (Nat.mod_lt _ ten) e8
  refine ⟨by omega, by omega, by omega⟩

/-! ## Helper lemmas: digest shape -/

theorem length_wordHex (w : Nat) : (wordHex w).length = 8 := by
  simp [wordHex]

theorem length_compress (h b : List Nat) : (compress h b).length = 8 := by
  simp [compress]

theorem length_foldl_compress :
    ∀ (bs : List (List Nat)) (h : List Nat), h.length = 8 → (bs.foldl compress h).length = 8
  | [], _, hh => hh
  | b :: bs, h, _ => by
      simp only [List.foldl_cons]
      exact length_foldl_compress bs (compress h b) (length_compress h b)

theorem length_sha256 (msg : List Nat) : (sha256 msg).length = 8 :=
  length_foldl_compress _ _ (by simp [initH])

theorem hexDigest_data_length {ws : List Nat} (h : ws.length = 8) :
    (hexDigest ws).data.length = 64 := by
  simp only [hexDigest, List.length_flatten, List.map_map]
  have : List.map (List.length ∘ wordHex) ws = List.map (fun _ => 8) ws :=
    List.map_congr_left (fun w _ => length_wordHex w)
  rw [this, List.map_const', List.sum_replicate, h, smul_eq_mul]

theorem get_item_id_data_length (it : FeedItem) : (get_item_id it).data.length = 64 :=
  hexDigest_data_length (length_sha256 _)

/-! ## Helper lemmas: identity congruence -/

theorem get_item_id_congr {a b : FeedItem} (h1 : a.feed.url = b.feed.url)
    (h2 : a.url = b.url) (h3 : a.title = b.title) (h4 : a.description = b.description) :
    get_item_id a = get_item_id b := by
  unfold get_item_id itemIdBytes
  rw [h1, h2, h3, h4]

/-! ## Helper lemmas: aggregation fold -/

theorem parseStep_fold :
    ∀ (sources : List (String × SourceResult)) (acc : List Feed × List FeedItem × List String),
    sources.foldl parseStep acc =
      (acc.1 ++ aggFeeds sources, acc.2.1 ++ aggItems sources, acc.2.2 ++ parseFailures sources)
  | [], acc => by
      simp [aggFeeds, aggItems, parseFailures]
  | s :: ss, acc => by
      simp only [List.foldl_cons]
      rw [parseStep_fold ss (parseStep acc s)]
      obtain ⟨u, r⟩ := s
      cases r with
      | fetchFail => simp [parseStep, aggFeeds, aggItems, parseFailures, isParseFail]
      | parseFail => simp [parseStep, aggFeeds, aggItems, parseFailures, isParseFail]
      | ok pf => simp [parseStep, aggFeeds, aggItems, parseFailures, isParseFail]

/-! ## Claims -/

/-- Claim C2: the effective sort date of an item is
  `min(first-seen cache timestamp, item.date)`, used only for ordering:
  an item first seen at cache time `T` whose feed reports date
  `T + 1 day` sorts at effective date `T`, while an item that has a
  feed-supplied date is left unchanged by the backfill step (the
  stored/displayed date keeps the feed value). -/
theorem claim2_sort_key_min (cache : DateCache) (it : FeedItem) (T d : Nat)
    (hT : lookupC cache (get_item_id it) = some T) (hd : it.date = some d) :
    sort_key cache it = min T d ∧
    backfillItem cache it = it ∧
    (d = T + 86400 → sort_key cache it = T) := by
  refine ⟨?_, ?_, ?_⟩
  · simp [sort_key, hT, hd]
  · unfold backfillItem
    rw [hd]
  · intro h
    subst h
    simp [sort_key, hT, hd]

/-- Witness for C2 at a concrete item first seen at time 1000 whose
  feed-reported date is one day later. -/
theorem claim2_witness :
    sort_key [(get_item_id ⟨⟨"u", "ft", "fu"⟩, "iu", some 87400, "ti", "de"⟩, 1000)]
      ⟨⟨"u", "ft", "fu"⟩, "iu", some 87400, "ti", "de"⟩ = 1000 := by
  have h := claim2_sort_key_min
    [(get_item_id ⟨⟨"u", "ft", "fu"⟩, "iu", some 87400, "ti", "de"⟩, 1000)]
    ⟨⟨"u", "ft", "fu"⟩, "iu", some 87400, "ti", "de"⟩ 1000 87400
    (by simp [lookupC]) rfl
  exact h.2.2 (by norm_num)

/-- Claim C3: the new date cache has exactly one entry per distinct
  identity of the current item set (no duplicate keys, no leftover keys),
  identities present in the prior cache carry their timestamp forward
  unchanged, and identities not in the prior cache are inserted with the
  current wall-clock time. -/
theorem claim3_updateDateCache_spec (items : List FeedItem) (prior : DateCache) (now : Nat) :
    ((updateDateCache items prior now).map Prod.fst).Nodup ∧
    (∀ k, k ∈ (updateDateCache items prior now).map Prod.fst ↔ k ∈ items.map get_item_id) ∧
    (∀ k t, k ∈ items.map get_item_id → lookupC prior k = some t →
      lookupC (updateDateCache items prior now) k = some t) ∧
    (∀ k, k ∈ items.map get_item_id → lookupC prior k = none →
      lookupC (updateDateCache items prior now) k = some now) := by
  refine ⟨updateDateCache_nodup items prior now,
    fun k => updateDateCache_mem_keys items prior now k, ?_, ?_⟩
  · intro k t hk hp
    rw [updateDateCache_lookup]
    simp [hk, hp]
  · intro k hk hp
    rw [updateDateCache_lookup]
    simp [hk, hp]

/-- Witness for C3: one never-seen item is inserted at the current
  time, and one already-cached item carries its old timestamp. -/
theorem claim3_witness :
    lookupC (updateDateCache [⟨⟨"u", "ft", "fu"⟩, "iu", none, "ti", "de"⟩] [] 5)
      (get_item_id ⟨⟨"u", "ft", "fu"⟩, "iu", none, "ti", "de"⟩) = some 5 ∧
    lookupC (updateDateCache [⟨⟨"u", "ft", "fu"⟩, "iu", none, "ti", "de"⟩]
        [(get_item_id ⟨⟨"u", "ft", "fu"⟩, "iu", none, "ti", "de"⟩, 3)] 5)
      (get_item_id ⟨⟨"u", "ft", "fu"⟩, "iu", none, "ti", "de"⟩) = some 3 := by
  constructor
  · exact (claim3_updateDateCache_spec [⟨⟨"u", "ft", "fu"⟩, "iu", none, "ti", "de"⟩] [] 5).2.2.2
      (get_item_id ⟨⟨"u", "ft", "fu"⟩, "iu", none, "ti", "de"⟩) (by simp) rfl
  · exact (claim3_updateDateCache_spec [⟨⟨"u", "ft", "fu"⟩, "iu", none, "ti", "de"⟩]
      [(get_item_id ⟨⟨"u", "ft", "fu"⟩, "iu", none, "ti", "de"⟩, 3)] 5).2.2.1
      (get_item_id ⟨⟨"u", "ft", "fu"⟩, "iu", none, "ti", "de"⟩) 3 (by simp) (by simp [lookupC])

/-- Claim C4: running the date-stabilization step a second time on the
  same item set, with the cache produced by the first run as prior
  cache, yields a cache identical to the first run's output, whatever
  the second run's clock reads. -/
theorem claim4_cache_idempotent (items : List FeedItem) (prior : DateCache) (now now' : Nat) :
    updateDateCache items (updateDateCache items prior now) now' =
      updateDateCache items prior now := by
  show (items.map get_item_id).foldl
      (cacheStep (updateDateCache items prior now) now') [] =
    (items.map get_item_id).foldl (cacheStep prior now) []
  apply cacheFold_congr
  intro k hk
  rw [updateDateCache_lookup]
  simp [hk]

/-- Claim C8 counterexample: with an item whose identity is not in the
  prior cache, two runs whose wall-clock readings differ produce
  different caches, so the outputs are not independent of timing. -/
theorem claim8_counterexample :
    processItems [⟨⟨"u", "ft", "fu"⟩, "iu", none, "ti", "de"⟩] [] 0 10 ≠
      processItems [⟨⟨"u", "ft", "fu"⟩, "iu", none, "ti", "de"⟩] [] 1 10 := by
  intro h
  have e0 : (processItems [⟨⟨"u", "ft", "fu"⟩, "iu", none, "ti", "de"⟩] [] 0 10).2 =
      [(get_item_id ⟨⟨"u", "ft", "fu"⟩, "iu", none, "ti", "de"⟩, 0)] := by
    simp [processItems, updateDateCache, cacheStep, lookupC]
  have e1 : (processItems [⟨⟨"u", "ft", "fu"⟩, "iu", none, "ti", "de"⟩] [] 1 10).2 =
      [(get_item_id ⟨⟨"u", "ft", "fu"⟩, "iu", none, "ti", "de"⟩, 1)] := by
    simp [processItems, updateDateCache, cacheStep, lookupC]
  have hc := congrArg Prod.snd h
  rw [e0, e1] at hc
  simp at hc

/-- Claim C8 amended: two runs of the processing pipeline on the same
  parsed items and prior cache agree whenever their wall-clock readings
  agree; and when every item's identity is already in the prior cache
  the result does not depend on the clock at all. -/
theorem claim8_amended (items : List FeedItem) (prior : DateCache) (now1 now2 m : Nat) :
    (now1 = now2 → processItems items prior now1 m = processItems items prior now2 m) ∧
    ((∀ it ∈ items, (lookupC prior (get_item_id it)).isSome) →
      processItems items prior now1 m = processItems items prior now2 m) := by
  constructor
  · intro h
    rw [h]
  · intro h
    have hcache : updateDateCache items prior now1 = updateDateCache items prior now2 := by
      show (items.map get_item_id).foldl (cacheStep prior now1) [] =
        (items.map get_item_id).foldl (cacheStep prior now2) []
      apply cacheFold_congr
      intro k hk
      obtain ⟨it, hit, rfl⟩ := List.mem_map.mp hk
      obtain ⟨t, ht⟩ := Option.isSome_iff_exists.mp (h it hit)
      rw [ht]
      rfl
    simp [processItems, hcache]

/-- Witness for C8 amended: an item already in the prior cache makes
  runs at clock readings 0 and 1 agree. -/
theorem claim8_witness :
    processItems [⟨⟨"u", "ft", "fu"⟩, "iu", none, "ti", "de"⟩]
      [(get_item_id ⟨⟨"u", "ft", "fu"⟩, "iu", none, "ti", "de"⟩, 7)] 0 3 =
    processItems [⟨⟨"u", "ft", "fu"⟩, "iu", none, "ti", "de"⟩]
      [(get_item_id ⟨⟨"u", "ft", "fu"⟩, "iu", none, "ti", "de"⟩, 7)] 1 3 := by
  apply (claim8_amended [⟨⟨"u", "ft", "fu"⟩, "iu", none, "ti", "de"⟩]
    [(get_item_id ⟨⟨"u", "ft", "fu"⟩, "iu", none, "ti", "de"⟩, 7)] 0 1 3).2
  intro x hx
  simp only [List.mem_singleton] at hx
  subst hx
  simp [lookupC]

/-- Claim C9: after sorting newest-first the item list is cut to the
  configured maximum count, keeping the first `max_items` entries and
  discarding the rest; with `max_items = 2` and items `[X, Y, Z]` the
  output is `[X, Y]`. -/
theorem claim9_truncation (items : List FeedItem) (prior : DateCache) (now m : Nat) :
    (processItems items prior now m).1 =
      truncateItems
        (sortItems (updateDateCache items prior now)
          (items.map (backfillItem (updateDateCache items prior now)))) m ∧
    (∀ l : List FeedItem, truncateItems l m ++ l.drop m = l) ∧
    (∀ X Y Z : FeedItem, truncateItems [X, Y, Z] 2 = [X, Y]) := by
  refine ⟨rfl, ?_, ?_⟩
  · intro l
    exact List.take_append_drop m l
  · intro X Y Z
    rfl

/-- Claim C5: the item ordering is a stable descending sort by
  effective sort date: the output is sorted newest-first by `sort_key`,
  two items with equal `sort_key` keep their relative input order, and
  for items `[A, B, C]` dated 2020-01-01, 2020-01-02, 2020-01-01 (as
  Unix seconds), all first seen at one instant `T` no earlier than the
  dates, the result is `[B, A, C]`. -/
theorem claim5_stable_sort (cache : DateCache) (items : List FeedItem) :
    List.Sorted (itemLE cache) (sortItems cache items) ∧
    (∀ a b : FeedItem, List.Sublist [a, b] items → sort_key cache a = sort_key cache b →
      List.Sublist [a, b] (sortItems cache items)) ∧
    (∀ (A B C : FeedItem) (T : Nat),
      lookupC cache (get_item_id A) = some T →
      lookupC cache (get_item_id B) = some T →
      lookupC cache (get_item_id C) = some T →
      A.date = some 1577836800 → B.date = some 1577923200 → C.date = some 1577836800 →
      1577923200 ≤ T →
      sortItems cache [A, B, C] = [B, A, C]) := by
  refine ⟨?_, ?_, ?_⟩
  · exact List.sorted_insertionSort (itemLE cache) items
  · intro a b hsub hkey
    exact List.pair_sublist_insertionSort (le_of_eq hkey.symm) hsub
  · intro A B C T hA hB hC dA dB dC hT
    have kA : sort_key cache A = 1577836800 := by
      simp [sort_key, hA, dA]
      omega
    have kB : sort_key cache B = 1577923200 := by
      simp [sort_key, hB, dB]
      omega
    have kC : sort_key cache C = 1577836800 := by
      simp [sort_key, hC, dC]
      omega
    simp [sortItems, List.insertionSort, List.orderedInsert, itemLE, kA, kB, kC]

/-- Witness for C5: three concrete items differing only in their dates
  (so they share one identity and one first-seen entry), with the
  2020-01-02 item sorted first and the tied items in input order. -/
theorem claim5_witness :
    sortItems
      [(get_item_id ⟨⟨"u", "ft", "fu"⟩, "iu", some 1577836800, "ti", "de"⟩, 1577923200)]
      [⟨⟨"u", "ft", "fu"⟩, "iu", some 1577836800, "ti", "de"⟩,
       ⟨⟨"u", "ft", "fu"⟩, "iu", some 1577923200, "ti", "de"⟩,
       ⟨⟨"u", "ft", "fu"⟩, "iu", some 1577836800, "ti", "de"⟩] =
      [⟨⟨"u", "ft", "fu"⟩, "iu", some 1577923200, "ti", "de"⟩,
       ⟨⟨"u", "ft", "fu"⟩, "iu", some 1577836800, "ti", "de"⟩,
       ⟨⟨"u", "ft", "fu"⟩, "iu", some 1577836800, "ti", "de"⟩] := by
  have e2 : get_item_id ⟨⟨"u", "ft", "fu"⟩, "iu", some 1577923200, "ti", "de"⟩ =
      get_item_id ⟨⟨"u", "ft", "fu"⟩, "iu", some 1577836800, "ti", "de"⟩ :=
    get_item_id_congr rfl rfl rfl rfl
  apply (claim5_stable_sort
      [(get_item_id ⟨⟨"u", "ft", "fu"⟩, "iu", some 1577836800, "ti", "de"⟩, 1577923200)]
      [⟨⟨"u", "ft", "fu"⟩, "iu", some 1577836800, "ti", "de"⟩,
       ⟨⟨"u", "ft", "fu"⟩, "iu", some 1577923200, "ti", "de"⟩,
       ⟨⟨"u", "ft", "fu"⟩, "iu", some 1577836800, "ti", "de"⟩]).2.2 _ _ _ 1577923200
    (by simp [lookupC]) (by rw [e2]; simp [lookupC]) (by simp [lookupC])
    rfl rfl rfl (le_refl _)

/-- Claim C1 counterexample: `get_item_id` maps the infinitely many
  possible `url` values of otherwise identical items into the finite
  set of length-64 digest strings, so by pigeonhole two items equal in
  all fields but `url` share an identity; "changing any one of the four
  fields yields a different identity" is therefore false. -/
theorem claim1_counterexample :
    ∃ a b : FeedItem, a.feed = b.feed ∧ a.date = b.date ∧ a.title = b.title ∧
      a.description = b.description ∧ a.url ≠ b.url ∧ get_item_id a = get_item_id b := by
  obtain ⟨s1, s2, hne, heq⟩ :=
    Finite.exists_ne_map_eq_of_infinite
      (fun (s : String) (i : Fin 64) =>
        (⟨((get_item_id ⟨⟨"u", "ft", "fu"⟩, s, none, "ti", "de"⟩).data.getD i.val 'a').toNat,
          char_toNat_lt _⟩ : Fin 1114112))
  refine ⟨⟨⟨"u", "ft", "fu"⟩, s1, none, "ti", "de"⟩,
    ⟨⟨"u", "ft", "fu"⟩, s2, none, "ti", "de"⟩, rfl, rfl, rfl, rfl, hne, ?_⟩
  apply String.ext
  apply List.ext_getElem
  · rw [get_item_id_data_length, get_item_id_data_length]
  intro i h1 h2
  have hl : i < 64 := by
    rw [get_item_id_data_length] at h1
    exact h1
  have hi := congrFun heq ⟨i, hl⟩
  simp only [Fin.mk.injEq] at hi
  have hch := char_toNat_injective _ _ hi
  rwa [List.getD_eq_getElem _ _ h1, List.getD_eq_getElem _ _ h2] at hch

/-- Claim C1 amended: the identity is a pure function of
  `(feed.url, url, title, description)` — items equal in those four
  fields have equal identities — and changing exactly one of the four
  fields always changes the byte sequence fed to SHA-256, hence the
  identity except when SHA-256 collides on the two byte sequences. -/
theorem claim1_identity (a b : FeedItem) :
    (a.feed.url = b.feed.url → a.url = b.url → a.title = b.title →
      a.description = b.description → get_item_id a = get_item_id b) ∧
    (a.url = b.url → a.title = b.title → a.description = b.description →
      a.feed.url ≠ b.feed.url → itemIdBytes a ≠ itemIdBytes b) ∧
    (a.feed.url = b.feed.url → a.title = b.title → a.description = b.description →
      a.url ≠ b.url → itemIdBytes a ≠ itemIdBytes b) ∧
    (a.feed.url = b.feed.url → a.url = b.url → a.description = b.description →
      a.title ≠ b.title → itemIdBytes a ≠ itemIdBytes b) ∧
    (a.feed.url = b.feed.url → a.url = b.url → a.title = b.title →
      a.description ≠ b.description → itemIdBytes a ≠ itemIdBytes b) := by
  refine ⟨fun h1 h2 h3 h4 => get_item_id_congr h1 h2 h3 h4, ?_, ?_, ?_, ?_⟩
  · intro h2 h3 h4 hne heq
    unfold itemIdBytes at heq
    rw [h2, h3, h4] at heq
    exact hne (utf8Str_injective
      (List.append_cancel_right (List.append_cancel_right (List.append_cancel_right heq))))
  · intro h1 h3 h4 hne heq
    unfold itemIdBytes at heq
    rw [h1, h3, h4] at heq
    exact hne (utf8Str_injective
      (List.append_cancel_left (List.append_cancel_right (List.append_cancel_right heq))))
  · intro h1 h2 h4 hne heq
    unfold itemIdBytes at heq
    rw [h1, h2, h4] at heq
    exact hne (utf8Str_injective
      (List.append_cancel_left (List.append_cancel_right heq)))
  · intro h1 h2 h3 hne heq
    unfold itemIdBytes at heq
    rw [h1, h2, h3] at heq
    exact hne (utf8Str_injective (List.append_cancel_left heq))

/-- Witness for C1 amended: determinism at items differing only in
  `feed.id`, `feed.title` and `date`, and byte-level sensitivity at
  items differing only in `title`. -/
theorem claim1_witness :
    get_item_id ⟨⟨"u1", "ft1", "fu"⟩, "iu", none, "ti", "de"⟩ =
      get_item_id ⟨⟨"u2", "ft2", "fu"⟩, "iu", some 5, "ti", "de"⟩ ∧
    itemIdBytes ⟨⟨"u", "ft", "fu"⟩, "iu", none, "ti", "de"⟩ ≠
      itemIdBytes ⟨⟨"u", "ft", "fu"⟩, "iu", none, "tj", "de"⟩ := by
  constructor
  · exact (claim1_identity ⟨⟨"u1", "ft1", "fu"⟩, "iu", none, "ti", "de"⟩
      ⟨⟨"u2", "ft2", "fu"⟩, "iu", some 5, "ti", "de"⟩).1 rfl rfl rfl rfl
  · exact (claim1_identity ⟨⟨"u", "ft", "fu"⟩, "iu", none, "ti", "de"⟩
      ⟨⟨"u", "ft", "fu"⟩, "iu", none, "tj", "de"⟩).2.2.2.1 rfl rfl rfl (by decide)

/-- Claim C7: a fetch or parse failure of one feed source records that
  source in the failed list and the run continues with the remaining
  sources, whose items are still produced; a failure in one entry of a
  parsed feed drops only that entry.  With three sources of which the
  second is unparseable, the failed list is exactly that source and the
  items of sources one and three are all present. -/
theorem claim7_failure_isolation :
    (∀ sources : List (String × SourceResult),
      aggregate sources =
        (aggFeeds sources, aggItems sources,
         fetchFailures sources ++ parseFailures sources)) ∧
    (∀ (u1 u2 u3 : String) (pf1 pf3 : ParsedFeed),
      aggregate [(u1, .ok pf1), (u2, .parseFail), (u3, .ok pf3)] =
        ([feedOf u1 pf1, feedOf u3 pf3],
         pf1.entries.filterMap (processEntry (feedOf u1 pf1)) ++
           pf3.entries.filterMap (processEntry (feedOf u3 pf3)),
         [u2])) := by
  have hgen : ∀ sources : List (String × SourceResult),
      aggregate sources =
        (aggFeeds sources, aggItems sources,
         fetchFailures sources ++ parseFailures sources) := by
    intro sources
    simp [aggregate, parsePhase, parseStep_fold sources ([], [], []), fetchFailures]
  refine ⟨hgen, fun u1 u2 u3 pf1 pf3 => ?_⟩
  rw [hgen]
  simp [aggFeeds, aggItems, fetchFailures, parseFailures, isFetchFail, isParseFail]

/-- Claim C6 counterexample: changing the single context element from
  `None` to the one-character string `","` does not change the id,
  because the `None` placeholder byte plus separator coincides with the
  encoding of a literal `","` element; so "changing any single list
  element changes the id" is false. -/
theorem claim6_counterexample :
    ((some "," : Option String) ≠ none) ∧
    atomGetId "example.org" none [none] = atomGetId "example.org" none [some ","] := by
  refine ⟨by simp, ?_⟩
  have h : idBytes [none] = idBytes [some ","] := by decide
  unfold atomGetId
  rw [h]

/-- Claim C6 amended: `_get_id` is deterministic (same owner, date and
  content parts give the same id); an absent (`None`) element and an
  empty-string element always produce different hashed byte sequences —
  and different ids at a concrete instance — and changing a single list
  element changes the hashed byte sequence (hence the id except for
  SHA-256 collisions), unless the change swaps `None` with the literal
  string `","`, which are encoded identically. -/
theorem claim6_tag_id (owner : String) (date : Option PyDateTime)
    (c1 c2 : List (Option String)) (pre post : List (Option String)) (x y : Option String) :
    (c1 = c2 → atomGetId owner date c1 = atomGetId owner date c2) ∧
    (idBytes (pre ++ [none] ++ post) ≠ idBytes (pre ++ [some ""] ++ post)) ∧
    (x ≠ y → ¬(x = none ∧ y = some ",") → ¬(x = some "," ∧ y = none) →
      idBytes (pre ++ [x] ++ post) ≠ idBytes (pre ++ [y] ++ post)) ∧
    (atomGetId "example.org" none [none] ≠ atomGetId "example.org" none [some ""]) := by
  have hmid : ∀ u v : Option String,
      idBytes (pre ++ [u] ++ post) = idBytes (pre ++ [v] ++ post) → partEnc u = partEnc v := by
    intro u v h
    unfold idBytes at h
    have h1 := List.append_cancel_left h
    simp only [List.map_append, List.flatten_append, List.map_cons, List.map_nil,
      List.flatten_cons, List.flatten_nil, List.append_nil] at h1
    exact List.append_cancel_left (List.append_cancel_right h1)
  refine ⟨?_, ?_, ?_, ?_⟩
  · intro h
    rw [h]
  · intro h
    have := hmid none (some "") h
    exact absurd this (by decide)
  · intro hxy hn1 hn2 h
    have hpe := hmid x y h
    match x, y with
    | none, none => exact hxy rfl
    | none, some s =>
        simp only [partEnc] at hpe
        have hs := utf8Str_injective (List.append_cancel_right hpe)
        exact hn1 ⟨rfl, by rw [← hs]⟩
    | some s, none =>
        simp only [partEnc] at hpe
        have hs := utf8Str_injective (List.append_cancel_right hpe)
        exact hn2 ⟨by rw [hs], rfl⟩
    | some s1, some s2 =>
        simp only [partEnc] at hpe
        have hs := utf8Str_injective (List.append_cancel_right hpe)
        exact hxy (by rw [hs])
  · decide

/-- Witness for C6: determinism at a concrete context, and byte-level
  sensitivity for changing the single element from `"a"` to `"b"`. -/
theorem claim6_witness :
    atomGetId "o" none [some "a"] = atomGetId "o" none [some "a"] ∧
    idBytes [(some "a" : Option String)] ≠ idBytes [(some "b" : Option String)] := by
  constructor
  · exact (claim6_tag_id "o" none [some "a"] [some "a"] [] [] (some "a") (some "b")).1 rfl
  · have h := (claim6_tag_id "o" none [some "a"] [some "a"] [] [] (some "a")
      (some "b")).2.2.1 (by decide) (by decide) (by decide)
    simpa using h

/-- Claim C10: the rendered Atom entry id embeds the calendar day of
  the entry's `updated` timestamp, so two entries with identical
  `id_context` (and identical title, link, content) whose `updated`
  days differ get different ids, while changing `updated` within one
  calendar day leaves the id unchanged. -/
theorem claim10_entry_id_day (e1 e2 : AtomFeedEntry) (owner : String)
    (ht : e1.title = e2.title) (hl : e1.link = e2.link) (hc : e1.content = e2.content)
    (hctx : e1.id_context = e2.id_context)
    (hy1 : e1.updated.year < 10000) (hy2 : e2.updated.year < 10000)
    (hm1 : e1.updated.month < 100) (hm2 : e2.updated.month < 100)
    (hd1 : e1.updated.day < 100) (hd2 : e2.updated.day < 100) :
    ((e1.updated.year, e1.updated.month, e1.updated.day) ≠
        (e2.updated.year, e2.updated.month, e2.updated.day) →
      entryAtomId e1 owner ≠ entryAtomId e2 owner) ∧
    ((e1.updated.year, e1.updated.month, e1.updated.day) =
        (e2.updated.year, e2.updated.month, e2.updated.day) →
      entryAtomId e1 owner = entryAtomId e2 owner) := by
  have hcx : entryIdContext e1 = entryIdContext e2 := by
    unfold entryIdContext
    rw [ht, hl, hc, hctx]
  constructor
  · intro hday hideq
    unfold entryAtomId atomGetId at hideq
    rw [hcx] at hideq
    have hdata := congrArg String.data hideq
    simp only [String.data_append] at hdata
    have hday' : (dayString ((some e1.updated).getD epochDT)).data =
        (dayString ((some e2.updated).getD epochDT)).data :=
      List.append_cancel_left
        (List.append_cancel_right (List.append_cancel_right hdata))
    have hinj := dayString_injective hy1 hy2 hm1 hm2 hd1 hd2 (String.ext hday')
    exact hday (by simp [hinj.1, hinj.2.1, hinj.2.2])
  · intro hday
    have h3 : e1.updated.year = e2.updated.year ∧ e1.updated.month = e2.updated.month ∧
        e1.updated.day = e2.updated.day := by
      simpa [Prod.ext_iff] using hday
    have hds : dayString e1.updated = dayString e2.updated := by
      unfold dayString
      rw [h3.1, h3.2.1, h3.2.2]
    unfold entryAtomId atomGetId
    rw [hcx]
    simp [Option.getD_some, hds]

/-- Witness for C10: two concrete entries with equal context whose
  `updated` stamps fall on 2020-01-01 and 2020-01-02 get different ids;
  the hour change within 2020-01-01 leaves the id equal. -/
theorem claim10_witness :
    entryAtomId ⟨"t", ⟨2020, 1, 1, 3, 0, 0⟩, none, none, none, none, some []⟩ "o" ≠
      entryAtomId ⟨"t", ⟨2020, 1, 2, 4, 0, 0⟩, none, none, none, none, some []⟩ "o" ∧
    entryAtomId ⟨"t", ⟨2020, 1, 1, 3, 0, 0⟩, none, none, none, none, some []⟩ "o" =
      entryAtomId ⟨"t", ⟨2020, 1, 1, 23, 59, 59⟩, none, none, none, none, some []⟩ "o" := by
  constructor
  · exact (claim10_entry_id_day
      ⟨"t", ⟨2020, 1, 1, 3, 0, 0⟩, none, none, none, none, some []⟩
      ⟨"t", ⟨2020, 1, 2, 4, 0, 0⟩, none, none, none, none, some []⟩ "o"
      rfl rfl rfl rfl (by norm_num) (by norm_num) (by norm_num) (by norm_num)
      (by norm_num) (by norm_num)).1 (by decide)
  · exact (claim10_entry_id_day
      ⟨"t", ⟨2020, 1, 1, 3, 0, 0⟩, none, none, none, none, some []⟩
      ⟨"t", ⟨2020, 1, 1, 23, 59, 59⟩, none, none, none, none, some []⟩ "o"
      rfl rfl rfl rfl (by norm_num) (by norm_num) (by norm_num) (by norm_num)
      (by norm_num) (by norm_num)).2 rfl

end StaticPlanet
